import Mathlib

/-!
Verification development for the gaws AWS client library.

The model below is a shallow embedding of the retrying request sender
(`AWSRequest.Do` in gaws, also present as `SendAWSRequest` taking a
retry predicate), the Kinesis retry classifier `kinesisRetryPredicate`,
the Kinesis record base64 payload encoding (`Stream.PutRecord` /
`Record.Bytes`), and the polling consumer `KinesisService.StreamRecords`.

Machine integers of the Go source are modelled as `Int` (Go `int`) and
`Nat` (byte values, durations); byte slices as `List Nat` with values
below 256; Go `error` values as `Option GoError` (`none` = nil error);
a possibly nil byte slice as `Option` of the body type.
-/

namespace Gaws

/-- The error document returned from many AWS requests
(`gawsError` / `AWSError` in the source): `{"__type": ..., "message": ...}`. -/
structure gawsError where
  type : String
  message : String
deriving DecidableEq, Repr

/-- The error document returned from the Kinesis service (`kinesisError`). -/
structure kinesisError where
  type : String
  message : String
deriving DecidableEq, Repr

/-- The sentinel error returned when the retry budget is exhausted. -/
def exceededRetriesError : gawsError :=
  { type := "GawsExceededMaxRetries"
    message := "The maximum number of retries for this request was exceeded." }

/-- Go `error` values that appear in the modelled code paths. `none : Option GoError`
models a nil error. -/
inductive GoError where
  /-- a `gawsError` used as an `error` value -/
  | gaws (e : gawsError)
  /-- a `kinesisError` used as an `error` value -/
  | kinesis (e : kinesisError)
  /-- an error returned by `json.Unmarshal` -/
  | unmarshal (msg : String)
  /-- a transport-level error returned by `http.Client.Do` -/
  | transport (msg : String)
  /-- an error returned by `ioutil.ReadAll` while reading the response body -/
  | readFailure (msg : String)
  /-- an error returned by `base64.StdEncoding.DecodeString` -/
  | base64Corrupt (msg : String)
deriving DecidableEq, Repr

/-- The outcome of one network attempt (`client.Do` followed by
`ioutil.ReadAll` on the response body), as observed by the retry loop.
The body type `β` is abstract because the loop never inspects the bytes
itself; it only hands them to the retry predicate and returns them. -/
inductive AttemptOutcome (β : Type) where
  /-- `client.Do` returned a non-nil error (and a nil response) -/
  | transportError (e : GoError)
  /-- `client.Do` succeeded but `ioutil.ReadAll` failed; `partialBody` is what
  `ReadAll` returned alongside the error -/
  | readError (partialBody : β) (e : GoError)
  /-- a response was received and its body fully read -/
  | response (status : Int) (body : β)

/-- An observable side effect of the retry loop: a network attempt
(numbered by its `t` counter value) or a backoff sleep of the given
number of milliseconds. -/
inductive LoopEvent where
  | attempt (t : Int)
  | sleep (ms : Nat)
deriving DecidableEq, Repr

/-- What a call to the retry loop returns, together with the trace of its
observable effects. `body = none` models returning a nil byte slice
(the initial value of `lastBody`); `err = none` models a nil error. -/
structure DoResult (β : Type) where
  body : Option β
  err : Option GoError
  events : List LoopEvent

/-- The number of network attempts recorded in an event trace. -/
def numAttempts (evs : List LoopEvent) : Nat :=
  evs.countP fun ev => match ev with
    | .attempt _ => true
    | .sleep _ => false

/-- The body of the `for t := 1; t < MaxTries; try++` loop of
`AWSRequest.Do` (src/unnamed/part_000; the same loop appears in
`SendAWSRequest` of src/unnamed/part_001), started at counter value `t`
with the current value of `lastBody`. `net t` is the outcome of the
network attempt made at counter value `t`; `empty` models `make([]byte, 0)`;
`retry` is the request's `RetryPredicate`.
On `shouldRetry` the predicate's error is discarded, `lastBody` is set to
the body just read, and the loop sleeps `100 * 2^t` milliseconds
(`time.Duration(100 * math.Pow(2.0, float64(try)))` — exact, since
`100 * 2^try = 25 * 2^(try+2)` is exactly representable in float64). -/
def sendLoopAux {β : Type} (retry : Int → β → Bool × Option GoError)
    (net : Int → AttemptOutcome β) (empty : β) (MaxTries : Int)
    (t : Int) (lastBody : Option β) : DoResult β :=
  if _h : t < MaxTries then
    match net t with
    | .transportError e => ⟨some empty, some e, [.attempt t]⟩
    | .readError b e => ⟨some b, some e, [.attempt t]⟩
    | .response status body =>
      match retry status body with
      | (true, _) =>
        let rest := sendLoopAux retry net empty MaxTries (t + 1) (some body)
        ⟨rest.body, rest.err, .attempt t :: .sleep (100 * 2 ^ t.toNat) :: rest.events⟩
      | (false, e) => ⟨some body, e, [.attempt t]⟩
  else
    ⟨lastBody, some (.gaws exceededRetriesError), []⟩
termination_by (MaxTries - t).toNat
decreasing_by
  simp_wf
  omega

/-- `AWSRequest.Do` (src/unnamed/part_000 lines 56–86): run the retry loop
from `t = 1` with `lastBody` nil. The request's URL, method, headers and
payload only determine `net`; `retry` is the `RetryPredicate` field. -/
def AWSRequest.Do {β : Type} (retry : Int → β → Bool × Option GoError)
    (net : Int → AttemptOutcome β) (empty : β) (MaxTries : Int) : DoResult β :=
  sendLoopAux retry net empty MaxTries 1 none

/-! Step equations for the loop. -/

theorem sendLoopAux_stop {β : Type} (retry : Int → β → Bool × Option GoError)
    (net : Int → AttemptOutcome β) (empty : β) {MaxTries t : Int}
    (lastBody : Option β) (h : ¬ t < MaxTries) :
    sendLoopAux retry net empty MaxTries t lastBody =
      ⟨lastBody, some (.gaws exceededRetriesError), []⟩ := by
  rw [sendLoopAux.eq_def, dif_neg h]


theorem sendLoopAux_transport {β : Type} (retry : Int → β → Bool × Option GoError)
    {net : Int → AttemptOutcome β} (empty : β) {MaxTries t : Int}
    (lastBody : Option β) {e : GoError} (h : t < MaxTries)
    (hn : net t = .transportError e) :
    sendLoopAux retry net empty MaxTries t lastBody =
      ⟨some empty, some e, [.attempt t]⟩ := by
  rw [sendLoopAux.eq_def, dif_pos h, hn]

theorem sendLoopAux_readError {β : Type} (retry : Int → β → Bool × Option GoError)
    {net : Int → AttemptOutcome β} (empty : β) {MaxTries t : Int}
    (lastBody : Option β) {b : β} {e : GoError} (h : t < MaxTries)
    (hn : net t = .readError b e) :
    sendLoopAux retry net empty MaxTries t lastBody =
      ⟨some b, some e, [.attempt t]⟩ := by
  rw [sendLoopAux.eq_def, dif_pos h, hn]

theorem sendLoopAux_retry {β : Type} {retry : Int → β → Bool × Option GoError}
    {net : Int → AttemptOutcome β} (empty : β) {MaxTries t : Int}
    (lastBody : Option β) {s : Int} {b : β} {e : Option GoError}
    (h : t < MaxTries) (hn : net t = .response s b) (hr : retry s b = (true, e)) :
    sendLoopAux retry net empty MaxTries t lastBody =
      ⟨(sendLoopAux retry net empty MaxTries (t + 1) (some b)).body,
       (sendLoopAux retry net empty MaxTries (t + 1) (some b)).err,
       .attempt t :: .sleep (100 * 2 ^ t.toNat) ::
         (sendLoopAux retry net empty MaxTries (t + 1) (some b)).events⟩ := by
  rw [sendLoopAux.eq_def, dif_pos h, hn]
  dsimp only
  rw [hr]

theorem sendLoopAux_noretry {β : Type} {retry : Int → β → Bool × Option GoError}
    {net : Int → AttemptOutcome β} (empty : β) {MaxTries t : Int}
    (lastBody : Option β) {s : Int} {b : β} {e : Option GoError}
    (h : t < MaxTries) (hn : net t = .response s b) (hr : retry s b = (false, e)) :
    sendLoopAux retry net empty MaxTries t lastBody =
      ⟨some b, e, [.attempt t]⟩ := by
  rw [sendLoopAux.eq_def, dif_pos h, hn]
  dsimp only
  rw [hr]

/-! The Kinesis retry classifier (src/kinesis/kinesis.go, `kinesisRetryPredicate`). -/

/-- A response body as seen by `kinesisRetryPredicate`. The predicate inspects
the raw bytes only through `json.Unmarshal(body, &error)` into a `kinesisError`,
so a body is modelled by the result of that call: either the decoded error
document, or the message of the unmarshal failure. -/
inductive KinesisBody where
  /-- bytes that unmarshal to the error document `e` -/
  | wellFormed (e : kinesisError)
  /-- bytes on which `json.Unmarshal` fails with message `msg` -/
  | malformed (msg : String)
deriving DecidableEq, Repr

/-- The result of `json.Unmarshal(body, &error)` for a modelled body. -/
def jsonUnmarshalKinesisError : KinesisBody → Except String kinesisError
  | .wellFormed e => .ok e
  | .malformed msg => .error msg

/-- `kinesisRetryPredicate` (src/kinesis/kinesis.go lines 24–51): decide from
the status code and body whether to retry, and which error to carry. -/
def kinesisRetryPredicate (status : Int) (body : KinesisBody) : Bool × Option GoError :=
  if status < 400 then (false, none)
  else
    match jsonUnmarshalKinesisError body with
    | .error msg => (false, some (.unmarshal msg))
    | .ok e =>
      if 500 ≤ status then (true, some (.kinesis e))
      else if e.type = "Throttling" then (true, some (.kinesis e))
      else if e.type = "ProvisionedThroughputExceededException" then (true, some (.kinesis e))
      else (false, some (.kinesis e))

theorem kinesisRetryPredicate_lt400 {status : Int} (body : KinesisBody)
    (h : status < 400) : kinesisRetryPredicate status body = (false, none) := by
  unfold kinesisRetryPredicate
  rw [if_pos h]

theorem kinesisRetryPredicate_malformed {status : Int} {msg : String}
    (h : ¬ status < 400) :
    kinesisRetryPredicate status (.malformed msg) = (false, some (.unmarshal msg)) := by
  unfold kinesisRetryPredicate
  rw [if_neg h]
  rfl

theorem kinesisRetryPredicate_ge500 {status : Int} (e : kinesisError)
    (h5 : 500 ≤ status) :
    kinesisRetryPredicate status (.wellFormed e) = (true, some (.kinesis e)) := by
  unfold kinesisRetryPredicate
  rw [if_neg (by omega)]
  dsimp only [jsonUnmarshalKinesisError]
  rw [if_pos h5]

theorem kinesisRetryPredicate_4xx {status : Int} (e : kinesisError)
    (h4 : 400 ≤ status) (h5 : status < 500) :
    kinesisRetryPredicate status (.wellFormed e) =
      (if e.type = "Throttling" ∨ e.type = "ProvisionedThroughputExceededException"
        then true else false,
       some (.kinesis e)) := by
  unfold kinesisRetryPredicate
  rw [if_neg (by omega)]
  dsimp only [jsonUnmarshalKinesisError]
  rw [if_neg (by omega)]
  by_cases hT : e.type = "Throttling"
  · simp [hT]
  · by_cases hP : e.type = "ProvisionedThroughputExceededException" <;> simp [hT, hP]

/-! Behaviour of the loop when every attempt retries. -/

/-- The event trace of `n` consecutive retried attempts starting at counter
value `t`: each attempt is followed by its backoff sleep. -/
def allRetryTrace (t : Int) : Nat → List LoopEvent
  | 0 => []
  | n + 1 => .attempt t :: .sleep (100 * 2 ^ t.toNat) :: allRetryTrace (t + 1) n

theorem numAttempts_allRetryTrace (t : Int) (n : Nat) :
    numAttempts (allRetryTrace t n) = n := by
  induction n generalizing t with
  | zero => rfl
  | succ n ih =>
    simp only [allRetryTrace, numAttempts, List.countP_cons]
    have := ih (t + 1)
    simp only [numAttempts] at this
    simp [this]

theorem sendLoopAux_allRetry {β : Type} {retry : Int → β → Bool × Option GoError}
    {net : Int → AttemptOutcome β} (empty : β) {MaxTries : Int}
    {s : Int → Int} {b : Int → β}
    (hnet : ∀ t, net t = .response (s t) (b t))
    (hr : ∀ t, (retry (s t) (b t)).fst = true) :
    ∀ (n : Nat) (t : Int) (last : Option β), (MaxTries - t).toNat = n →
    sendLoopAux retry net empty MaxTries t last =
      ⟨if t < MaxTries then some (b (MaxTries - 1)) else last,
       some (.gaws exceededRetriesError), allRetryTrace t n⟩ := by
  intro n
  induction n with
  | zero =>
    intro t last h0
    have hlt : ¬ t < MaxTries := by omega
    rw [sendLoopAux_stop _ _ _ _ hlt, if_neg hlt]
    rfl
  | succ n ih =>
    intro t last hn
    have hlt : t < MaxTries := by omega
    have hmk : retry (s t) (b t) = (true, (retry (s t) (b t)).snd) := by
      have := hr t
      exact Prod.ext this rfl
    rw [sendLoopAux_retry empty last hlt (hnet t) hmk,
        ih (t + 1) (some (b t)) (by omega)]
    rw [if_pos hlt]
    by_cases hlt1 : t + 1 < MaxTries
    · rw [if_pos hlt1]
      rfl
    · rw [if_neg hlt1]
      have : t = MaxTries - 1 := by omega
      rw [this]
      rfl

/-! Claims about the backoff loop and the classifier. -/

/-- C1: if the retry predicate reports "retry" on every received response, the
backoff loop performs exactly `MaxTries - 1` network attempts (4 when
`MaxTries = 5`) and returns the body of the last failing response together
with the exceeded-retries sentinel error. -/
theorem C1_exhausted_retries {β : Type} {retry : Int → β → Bool × Option GoError}
    {net : Int → AttemptOutcome β} (empty : β) {MaxTries : Int}
    {s : Int → Int} {b : Int → β}
    (hnet : ∀ t, net t = .response (s t) (b t))
    (hr : ∀ t, (retry (s t) (b t)).fst = true)
    (hM : 2 ≤ MaxTries) :
    numAttempts (AWSRequest.Do retry net empty MaxTries).events = (MaxTries - 1).toNat ∧
    (AWSRequest.Do retry net empty MaxTries).body = some (b (MaxTries - 1)) ∧
    (AWSRequest.Do retry net empty MaxTries).err = some (.gaws exceededRetriesError) := by
  unfold AWSRequest.Do
  rw [sendLoopAux_allRetry empty hnet hr (MaxTries - 1).toNat 1 none rfl]
  refine ⟨numAttempts_allRetryTrace 1 _, ?_, rfl⟩
  rw [if_pos (by omega)]

/-- C1 witness: with the default `MaxTries = 5` and a server failing on every
attempt, the loop makes exactly 4 network attempts and returns the body seen
on attempt 4 with the sentinel error. -/
theorem C1_witness :
    numAttempts (AWSRequest.Do (fun _ _ => (true, none))
      (fun t => .response 503 [t.toNat]) ([] : List Nat) 5).events = 4 ∧
    (AWSRequest.Do (fun _ _ => (true, none))
      (fun t => .response 503 [t.toNat]) ([] : List Nat) 5).body = some [4] ∧
    (AWSRequest.Do (fun _ _ => (true, none))
      (fun t => .response 503 [t.toNat]) ([] : List Nat) 5).err =
      some (.gaws exceededRetriesError) :=
  C1_exhausted_retries [] (fun _ => rfl) (fun _ => rfl) (by omega)

/-- C2: for a status in `[400, 500)` whose body decodes as the service error
document, the classifier retries exactly when the decoded type is
"Throttling" or "ProvisionedThroughputExceededException", always carrying the
decoded error; and when it reports no retry, the loop returns after the single
first attempt with that decoded error. -/
theorem C2_4xx_classification {s : Int} {e : kinesisError}
    {net : Int → AttemptOutcome KinesisBody} (empty : KinesisBody) {MaxTries : Int}
    (h4 : 400 ≤ s) (h5 : s < 500) :
    ((kinesisRetryPredicate s (.wellFormed e)).fst = true ↔
      e.type = "Throttling" ∨ e.type = "ProvisionedThroughputExceededException") ∧
    (kinesisRetryPredicate s (.wellFormed e)).snd = some (.kinesis e) ∧
    ((kinesisRetryPredicate s (.wellFormed e)).fst = false →
      1 < MaxTries → net 1 = .response s (.wellFormed e) →
      AWSRequest.Do kinesisRetryPredicate net empty MaxTries =
        ⟨some (.wellFormed e), some (.kinesis e), [.attempt 1]⟩) := by
  have hpred := kinesisRetryPredicate_4xx e h4 h5
  refine ⟨?_, ?_, ?_⟩
  · rw [hpred]
    by_cases hP : e.type = "Throttling" ∨ e.type = "ProvisionedThroughputExceededException" <;>
      simp [hP]
  · rw [hpred]
  · intro hfalse hM hn
    rw [hpred] at hfalse
    have hP : ¬ (e.type = "Throttling" ∨ e.type = "ProvisionedThroughputExceededException") := by
      intro hP
      rw [if_pos hP] at hfalse
      simp at hfalse
    unfold AWSRequest.Do
    exact sendLoopAux_noretry empty none hM hn (by rw [hpred, if_neg hP])

/-- C2 witness: a 404 with a decodable "NotFound" error is not retried and is
returned after one attempt with the decoded error. -/
theorem C2_witness :
    ((kinesisRetryPredicate 404 (.wellFormed ⟨"NotFound", "nope"⟩)).fst = true ↔
      kinesisError.type ⟨"NotFound", "nope"⟩ = "Throttling" ∨
        kinesisError.type ⟨"NotFound", "nope"⟩ = "ProvisionedThroughputExceededException") ∧
    (kinesisRetryPredicate 404 (.wellFormed ⟨"NotFound", "nope"⟩)).snd =
      some (.kinesis ⟨"NotFound", "nope"⟩) ∧
    ((kinesisRetryPredicate 404 (.wellFormed ⟨"NotFound", "nope"⟩)).fst = false →
      (1 : Int) < 5 →
      (fun _ : Int => AttemptOutcome.response 404 (KinesisBody.wellFormed ⟨"NotFound", "nope"⟩)) 1 =
        AttemptOutcome.response 404 (.wellFormed ⟨"NotFound", "nope"⟩) →
      AWSRequest.Do kinesisRetryPredicate
        (fun _ : Int => AttemptOutcome.response 404 (KinesisBody.wellFormed ⟨"NotFound", "nope"⟩))
        (KinesisBody.malformed "") 5 =
        ⟨some (.wellFormed ⟨"NotFound", "nope"⟩), some (.kinesis ⟨"NotFound", "nope"⟩),
         [.attempt 1]⟩) :=
  @C2_4xx_classification 404 ⟨"NotFound", "nope"⟩
    (fun _ : Int => AttemptOutcome.response 404 (KinesisBody.wellFormed ⟨"NotFound", "nope"⟩))
    (KinesisBody.malformed "") 5 (by omega) (by omega)

/-- C3: when every attempt yields a status `≥ 500` with a decodable error
document, the classifier reports retry carrying the decoded error on each
attempt, and the loop finally returns the exceeded-retries sentinel error, not
the underlying service error. -/
theorem C3_5xx_exhausts {net : Int → AttemptOutcome KinesisBody}
    {s : Int → Int} {e : Int → kinesisError} (empty : KinesisBody) {MaxTries : Int}
    (hs : ∀ t, 500 ≤ s t)
    (hnet : ∀ t, net t = .response (s t) (.wellFormed (e t))) :
    (∀ t, kinesisRetryPredicate (s t) (.wellFormed (e t)) =
      (true, some (.kinesis (e t)))) ∧
    (AWSRequest.Do kinesisRetryPredicate net empty MaxTries).err =
      some (.gaws exceededRetriesError) := by
  have hpred : ∀ t, kinesisRetryPredicate (s t) (.wellFormed (e t)) =
      (true, some (.kinesis (e t))) :=
    fun t => kinesisRetryPredicate_ge500 (e t) (hs t)
  refine ⟨hpred, ?_⟩
  unfold AWSRequest.Do
  rw [sendLoopAux_allRetry empty hnet (fun t => by rw [hpred t]) (MaxTries - 1).toNat 1
      none rfl]

/-- C3 witness: a server always answering 500 with a decodable
"InternalFailure" document is retried on every attempt and the loop ends with
the sentinel error. -/
theorem C3_witness :
    (∀ t : Int, kinesisRetryPredicate ((fun _ => (500 : Int)) t)
      (.wellFormed ((fun _ => (⟨"InternalFailure", "boom"⟩ : kinesisError)) t)) =
      (true, some (.kinesis ⟨"InternalFailure", "boom"⟩))) ∧
    (AWSRequest.Do kinesisRetryPredicate
      (fun _ => .response 500 (.wellFormed ⟨"InternalFailure", "boom"⟩))
      (.malformed "") 5).err = some (.gaws exceededRetriesError) :=
  C3_5xx_exhausts (.malformed "") (fun _ => by omega) (fun _ => rfl)

/-- C4: on any attempt where sending the signed request fails with a
transport-level error, the backoff loop returns immediately — that single
network attempt, no sleep — with an empty body and that transport error. -/
theorem C4_transport_error_immediate {β : Type}
    (retry : Int → β → Bool × Option GoError) {net : Int → AttemptOutcome β}
    (empty : β) {MaxTries t : Int} (lastBody : Option β) {e : GoError}
    (h : t < MaxTries) (hn : net t = .transportError e) :
    sendLoopAux retry net empty MaxTries t lastBody =
      ⟨some empty, some e, [.attempt t]⟩ :=
  sendLoopAux_transport retry empty lastBody h hn

/-- C4 witness: a connection failure on the first attempt is returned at once
with an empty body. -/
theorem C4_witness :
    sendLoopAux (fun _ (_ : List Nat) => (false, none))
      (fun _ => .transportError (.transport "connection refused")) [] 5 1 none =
      ⟨some [], some (.transport "connection refused"), [.attempt 1]⟩ :=
  C4_transport_error_immediate _ _ _ (by omega) rfl

/-- C5: a status `≥ 400` whose body fails to unmarshal as the error document
makes the classifier report (no retry, parse error), and the loop returns that
body and parse error after the single first attempt. -/
theorem C5_malformed_body {s : Int} {msg : String}
    {net : Int → AttemptOutcome KinesisBody} (empty : KinesisBody) {MaxTries : Int}
    (h4 : 400 ≤ s) (hM : 1 < MaxTries) (hn : net 1 = .response s (.malformed msg)) :
    kinesisRetryPredicate s (.malformed msg) = (false, some (.unmarshal msg)) ∧
    AWSRequest.Do kinesisRetryPredicate net empty MaxTries =
      ⟨some (.malformed msg), some (.unmarshal msg), [.attempt 1]⟩ := by
  have hpred := @kinesisRetryPredicate_malformed s msg (by omega)
  exact ⟨hpred, sendLoopAux_noretry empty none hM hn hpred⟩

/-- C5 witness: a non-JSON 404 body is returned with a parse error after one
attempt. -/
theorem C5_witness :
    kinesisRetryPredicate 404 (.malformed "invalid character 'I'") =
      (false, some (.unmarshal "invalid character 'I'")) ∧
    AWSRequest.Do kinesisRetryPredicate
      (fun _ => .response 404 (.malformed "invalid character 'I'"))
      (.malformed "") 5 =
      ⟨some (.malformed "invalid character 'I'"),
       some (.unmarshal "invalid character 'I'"), [.attempt 1]⟩ :=
  C5_malformed_body (.malformed "") (by omega) (by omega) rfl

/-- C6: a status `< 400` makes the classifier report (no retry, no error)
whatever the body holds, and the loop returns the body with a nil error on the
first attempt. -/
theorem C6_success_first_attempt {s : Int} {body : KinesisBody}
    {net : Int → AttemptOutcome KinesisBody} (empty : KinesisBody) {MaxTries : Int}
    (hs : s < 400) (hM : 1 < MaxTries) (hn : net 1 = .response s body) :
    kinesisRetryPredicate s body = (false, none) ∧
    AWSRequest.Do kinesisRetryPredicate net empty MaxTries =
      ⟨some body, none, [.attempt 1]⟩ := by
  have hpred := kinesisRetryPredicate_lt400 body hs
  exact ⟨hpred, sendLoopAux_noretry empty none hM hn hpred⟩

/-- C6 witness: a 200 response is returned as-is on the first attempt with a
nil error, even when its body would decode as a throttling document. -/
theorem C6_witness :
    kinesisRetryPredicate 200 (.wellFormed ⟨"Throttling", "irrelevant"⟩) = (false, none) ∧
    AWSRequest.Do kinesisRetryPredicate
      (fun _ => .response 200 (.wellFormed ⟨"Throttling", "irrelevant"⟩))
      (.malformed "") 5 =
      ⟨some (.wellFormed ⟨"Throttling", "irrelevant"⟩), none, [.attempt 1]⟩ :=
  C6_success_first_attempt (.malformed "") (by omega) (by omega) rfl

/-- C7: on every attempt `t` on which the predicate reports retry, the loop
records that response body as the last-seen failing body (it becomes the
`lastBody` of the continuation from attempt `t + 1`) and sleeps exactly
`100 * 2 ^ t` milliseconds before that next attempt. -/
theorem C7_backoff_step {β : Type} {retry : Int → β → Bool × Option GoError}
    {net : Int → AttemptOutcome β} (empty : β) {MaxTries t : Int}
    (lastBody : Option β) {s : Int} {b : β}
    (h : t < MaxTries) (hn : net t = .response s b)
    (hr : (retry s b).fst = true) :
    sendLoopAux retry net empty MaxTries t lastBody =
      ⟨(sendLoopAux retry net empty MaxTries (t + 1) (some b)).body,
       (sendLoopAux retry net empty MaxTries (t + 1) (some b)).err,
       .attempt t :: .sleep (100 * 2 ^ t.toNat) ::
         (sendLoopAux retry net empty MaxTries (t + 1) (some b)).events⟩ :=
  sendLoopAux_retry empty lastBody h hn (Prod.ext hr rfl)

/-- C7 witness: after a retried first attempt the loop sleeps 200 ms
(`100 * 2 ^ 1`) and continues from attempt 2 with that body remembered. -/
theorem C7_witness :
    sendLoopAux (fun _ (_ : List Nat) => (true, none))
      (fun _ => .response 500 [9]) [] 5 1 none =
      ⟨(sendLoopAux (fun _ (_ : List Nat) => (true, none))
          (fun _ => .response 500 [9]) [] 5 2 (some [9])).body,
       (sendLoopAux (fun _ (_ : List Nat) => (true, none))
          (fun _ => .response 500 [9]) [] 5 2 (some [9])).err,
       .attempt 1 :: .sleep 200 ::
         (sendLoopAux (fun _ (_ : List Nat) => (true, none))
            (fun _ => .response 500 [9]) [] 5 2 (some [9])).events⟩ :=
  C7_backoff_step [] none (by omega) rfl rfl

/-- C10: with the mutable global `MaxTries` set to any value `≤ 1`, the loop
body never runs: zero network attempts, a nil body, and the exceeded-retries
sentinel error, for every request. -/
theorem C10_maxtries_le_one {β : Type} (retry : Int → β → Bool × Option GoError)
    (net : Int → AttemptOutcome β) (empty : β) {MaxTries : Int}
    (hM : MaxTries ≤ 1) :
    AWSRequest.Do retry net empty MaxTries =
      ⟨none, some (.gaws exceededRetriesError), []⟩ := by
  unfold AWSRequest.Do
  exact sendLoopAux_stop retry net empty none (by omega)

/-- C10 witness: with `MaxTries = 1` the loop returns the sentinel error with
a nil body and performs no attempt, even against an always-healthy server. -/
theorem C10_witness :
    AWSRequest.Do (fun _ (_ : List Nat) => (false, none))
      (fun _ => .response 200 []) [] 1 =
      ⟨none, some (.gaws exceededRetriesError), []⟩ :=
  C10_maxtries_le_one _ _ _ (by omega)

/-! Base64 payload encoding of Kinesis records
(`base64.StdEncoding` as used by src/kinesis/stream.go and
src/kinesis/record.go). Bytes are `Nat` values below 256. -/

/-- The standard base64 alphabet used by `base64.StdEncoding`. -/
def b64Alphabet : List Char :=
  "ABCDEFGHIJKLMNOPQRSTUVWXYZabcdefghijklmnopqrstuvwxyz0123456789+/".toList

/-- The character encoding the 6-bit value `n`. -/
def b64char (n : Nat) : Char := b64Alphabet.getD n '?'

/-- The 6-bit value of a base64 character, if it is in the alphabet. -/
def b64val (c : Char) : Option Nat := b64Alphabet.findIdx? (fun x => x == c)

/-- `base64.StdEncoding.EncodeToString`, character level: encode bytes in
3-byte groups into 4 base64 characters each, padding a final partial group
with `=`. -/
def base64StdEncodeChars : List Nat → List Char
  | [] => []
  | [a] => [b64char (a / 4), b64char (a % 4 * 16), '=', '=']
  | [a, b] => [b64char (a / 4), b64char (a % 4 * 16 + b / 16), b64char (b % 16 * 4), '=']
  | a :: b :: c :: rest =>
    b64char (a / 4) :: b64char (a % 4 * 16 + b / 16) ::
      b64char (b % 16 * 4 + c / 64) :: b64char (c % 64) :: base64StdEncodeChars rest

/-- `base64.StdEncoding.EncodeToString`. -/
def base64StdEncode (data : List Nat) : String := String.mk (base64StdEncodeChars data)

/-- `base64.StdEncoding.DecodeString`, character level: decode 4-character
quanta; `=` padding may only close the final quantum; an invalid character or
a trailing partial quantum is a corrupt-input error. -/
def base64StdDecodeChars : List Char → Except GoError (List Nat)
  | [] => .ok []
  | c0 :: c1 :: c2 :: c3 :: rest =>
    match b64val c0, b64val c1 with
    | some s0, some s1 =>
      if c2 = '=' then
        if c3 = '=' ∧ rest = [] then .ok [s0 * 4 + s1 / 16]
        else .error (.base64Corrupt "illegal base64 data")
      else
        match b64val c2 with
        | some s2 =>
          if c3 = '=' then
            if rest = [] then .ok [s0 * 4 + s1 / 16, s1 % 16 * 16 + s2 / 4]
            else .error (.base64Corrupt "illegal base64 data")
          else
            match b64val c3 with
            | some s3 =>
              match base64StdDecodeChars rest with
              | .ok ds =>
                .ok ((s0 * 4 + s1 / 16) :: (s1 % 16 * 16 + s2 / 4) :: (s2 % 4 * 64 + s3) :: ds)
              | .error e => .error e
            | none => .error (.base64Corrupt "illegal base64 data")
        | none => .error (.base64Corrupt "illegal base64 data")
    | _, _ => .error (.base64Corrupt "illegal base64 data")
  | _ => .error (.base64Corrupt "illegal base64 data")

/-- `base64.StdEncoding.DecodeString`. -/
def base64StdDecode (s : String) : Except GoError (List Nat) :=
  base64StdDecodeChars s.toList

/-- A Kinesis record as returned in a GetRecords response
(src/kinesis/kinesis.go): `Data` is the base64-encoded data blob. -/
structure Record where
  Data : String
  PartitionKey : String
  SequenceNumber : String
deriving DecidableEq, Repr

/-- `Record.Bytes` (src/kinesis/record.go lines 8–11): decode the data in a
record and return it as bytes. -/
def Record.Bytes (r : Record) : Except GoError (List Nat) :=
  base64StdDecode r.Data

/-- A Kinesis stream (src/kinesis/stream.go). The service pointer only
carries the endpoint URL and does not affect the request payload. -/
structure Stream where
  Name : String

/-- `putRecordRequest` (src/kinesis/kinesis.go): the document sent by
`Stream.PutRecord`. -/
structure putRecordRequest where
  StreamName : String
  Data : String
  PartitionKey : String
deriving DecidableEq, Repr

/-- The payload construction in `Stream.PutRecord` (src/kinesis/stream.go
lines 12–28): the `Data` field is `base64.StdEncoding.EncodeToString(data)`. -/
def Stream.putRecordPayload (s : Stream) (partitionKey : String) (data : List Nat) :
    putRecordRequest :=
  { StreamName := s.Name, Data := base64StdEncode data, PartitionKey := partitionKey }

theorem b64val_b64char : ∀ n < 64, b64val (b64char n) = some n := by decide

theorem b64char_ne_pad : ∀ n < 64, ¬ b64char n = '=' := by decide

/-- Recursion principle following the 3-byte grouping of the encoder. -/
theorem threeChunkInduction {α : Type} {P : List α → Prop} (h0 : P [])
    (h1 : ∀ a, P [a]) (h2 : ∀ a b, P [a, b])
    (h3 : ∀ a b c rest, P rest → P (a :: b :: c :: rest)) : ∀ l, P l
  | [] => h0
  | [a] => h1 a
  | [a, b] => h2 a b
  | a :: b :: c :: rest => h3 a b c rest (threeChunkInduction h0 h1 h2 h3 rest)

theorem base64_roundtrip : ∀ l : List Nat, (∀ x ∈ l, x < 256) →
    base64StdDecodeChars (base64StdEncodeChars l) = .ok l := by
  refine threeChunkInduction (fun _ => rfl) ?_ ?_ ?_
  · intro a hl
    have ha : a < 256 := hl a (by simp)
    rw [base64StdEncodeChars, base64StdDecodeChars]
    rw [b64val_b64char _ (by omega), b64val_b64char _ (by omega)]
    dsimp only
    rw [if_pos rfl, if_pos ⟨rfl, rfl⟩]
    have : a / 4 * 4 + a % 4 * 16 / 16 = a := by omega
    rw [this]
  · intro a b hl
    have ha : a < 256 := hl a (by simp)
    have hb : b < 256 := hl b (by simp)
    rw [base64StdEncodeChars, base64StdDecodeChars]
    rw [b64val_b64char _ (by omega), b64val_b64char _ (by omega)]
    dsimp only
    rw [if_neg (b64char_ne_pad _ (by omega)), b64val_b64char _ (by omega)]
    dsimp only
    rw [if_pos rfl, if_pos rfl]
    have h1 : a / 4 * 4 + (a % 4 * 16 + b / 16) / 16 = a := by omega
    have h2 : (a % 4 * 16 + b / 16) % 16 * 16 + b % 16 * 4 / 4 = b := by omega
    rw [h1, h2]
  · intro a b c rest ih hl
    have ha : a < 256 := hl a (by simp)
    have hb : b < 256 := hl b (by simp)
    have hc : c < 256 := hl c (by simp)
    have hrest : ∀ x ∈ rest, x < 256 := fun x hx => hl x (by simp [hx])
    rw [base64StdEncodeChars, base64StdDecodeChars]
    rw [b64val_b64char _ (by omega), b64val_b64char _ (by omega)]
    dsimp only
    rw [if_neg (b64char_ne_pad _ (by omega)), b64val_b64char _ (by omega)]
    dsimp only
    rw [if_neg (b64char_ne_pad _ (by omega)), b64val_b64char _ (by omega)]
    dsimp only
    rw [ih hrest]
    have h1 : a / 4 * 4 + (a % 4 * 16 + b / 16) / 16 = a := by omega
    have h2 : (a % 4 * 16 + b / 16) % 16 * 16 + (b % 16 * 4 + c / 64) / 4 = b := by omega
    have h3 : (b % 16 * 4 + c / 64) % 4 * 64 + c % 64 = c := by omega
    rw [h1, h2, h3]

/-- C9: `Record.Bytes` is a left inverse of `PutRecord`'s payload encoding —
the `Data` string stored in the record request decodes back to exactly the
original bytes. -/
theorem C9_putrecord_data_roundtrip (s : Stream) (partitionKey seq pk : String)
    (d : List Nat) (hd : ∀ x ∈ d, x < 256) :
    Record.Bytes ⟨(s.putRecordPayload partitionKey d).Data, pk, seq⟩ = .ok d :=
  base64_roundtrip d hd

/-- C9 witness: the bytes of "hi" survive the PutRecord encode / Record.Bytes
decode round trip. -/
theorem C9_witness :
    Record.Bytes ⟨(Stream.putRecordPayload ⟨"events"⟩ "pk" [104, 105]).Data,
      "pk", "21269319989653637946712965403778482371"⟩ = .ok [104, 105] :=
  C9_putrecord_data_roundtrip ⟨"events"⟩ "pk"
    "21269319989653637946712965403778482371" "pk" [104, 105] (by decide)

/-! The polling consumer `KinesisService.StreamRecords`
(src/kinesis/kinesis.go lines 203–221). -/

/-- An event on the streaming consumer's channels: a record sent on the data
channel `c`, or an error sent on the error channel `errc`. The single
producer goroutine performs its channel sends strictly in program order, and
both channels are unbuffered, so receivers observe events in this order. -/
inductive ChanEvent where
  | data (r : Record)
  | fail (e : GoError)
deriving DecidableEq, Repr

/-- The sequence of channel sends performed by the goroutine of
`KinesisService.StreamRecords`: fetch a batch with `s.GetRecords(it, 0)`
(modelled by `getRecords`, the server's behaviour); on error send it on the
error channel and stop; otherwise advance the iterator and send each record of
the batch on the data channel. `fuel` bounds how many fetches are modelled —
the Go loop runs until an error occurs. -/
def streamRecordsEvents (getRecords : String → Except GoError (List Record × String)) :
    Nat → String → List ChanEvent
  | 0, _ => []
  | fuel + 1, it =>
    match getRecords it with
    | .error e => [.fail e]
    | .ok (records, newIt) =>
      records.map ChanEvent.data ++ streamRecordsEvents getRecords fuel newIt

/-- C8: when the server yields successful batches on the first `k` fetches and
fails on fetch `k`, the consumer delivers every record of every batch, in
batch order, on the data channel, then delivers the failure on the error
channel, and the background task stops (no further events). -/
theorem C8_stream_records_order
    (getRecords : String → Except GoError (List Record × String))
    (its : Nat → String) (batches : Nat → List Record) (k : Nat) (e : GoError)
    (hok : ∀ i < k, getRecords (its i) = .ok (batches i, its (i + 1)))
    (herr : getRecords (its k) = .error e)
    (fuel : Nat) (hfuel : k < fuel) :
    streamRecordsEvents getRecords fuel (its 0) =
      ((List.range k).map fun i => (batches i).map ChanEvent.data).flatten ++
        [.fail e] := by
  induction k generalizing its batches fuel with
  | zero =>
    obtain ⟨f, rfl⟩ : ∃ f, fuel = f + 1 := ⟨fuel - 1, by omega⟩
    rw [streamRecordsEvents, herr]
    rfl
  | succ k ih =>
    obtain ⟨f, rfl⟩ : ∃ f, fuel = f + 1 := ⟨fuel - 1, by omega⟩
    rw [streamRecordsEvents, hok 0 (by omega)]
    dsimp only
    rw [ih (fun n => its (n + 1)) (fun n => batches (n + 1))
      (fun i hi => hok (i + 1) (by omega)) herr f (by omega)]
    rw [List.range_succ_eq_map]
    simp [List.map_map, Function.comp_def, List.append_assoc]

/-- C8 witness: a server that returns one record and then a transport error
yields exactly that record on the data channel, then the failure on the error
channel, and nothing further. -/
theorem C8_witness :
    streamRecordsEvents
      (fun it => if it = "start" then
          .ok ([⟨"aGk=", "pk", "1"⟩], "next")
        else .error (.transport "EOF"))
      2 "start" =
      [.data ⟨"aGk=", "pk", "1"⟩, .fail (.transport "EOF")] :=
  (C8_stream_records_order
    (fun it => if it = "start" then .ok ([⟨"aGk=", "pk", "1"⟩], "next")
      else .error (.transport "EOF"))
    (fun n => if n = 0 then "start" else "next") (fun _ => [⟨"aGk=", "pk", "1"⟩])
    1 (.transport "EOF")
    (fun i hi => by interval_cases i; rfl) rfl 2 (by omega)).trans rfl

end Gaws
